import Mathlib

/-!
Verification of the feathers-stripe adapter services.

The development shallowly embeds the JavaScript sources:
  - `lib/services/transfer.js`: the legacy transfers `Service`, and the shared
    `StripeAdapter` base class (option validation, pagination-limit clamping in
    `getLimit`, query normalization in `cleanQuery`/`filterQuery`, pagination
    handling in `handlePaginate`, error remapping in `handleError`, and the
    `$patch` fallback).
  - `lib/services/price.js`: the prices `Service` and the legacy orders
    `Service` (whose `patch` fires a secondary `pay` call).

JavaScript values are modelled by the inductive `JSVal`: finite numbers become
`Int` (`NaN` is a separate constructor; other IEEE-754 edge cases such as
infinities and `-0` do not arise in any claim), objects become association
lists of string keys in insertion order, and promises become explicit
resolved/rejected sums.  A function body that cannot throw is embedded as a
total function; a constructor that can throw synchronously returns `Except`.
-/

set_option autoImplicit false

namespace FeathersStripe

/-- Model of a JavaScript value as the adapter manipulates them.  Numbers are
modelled as integers (`num`), with `NaN` as its own constructor; objects keep
their fields as an association list in insertion order. -/
inductive JSVal : Type where
  | undefined : JSVal
  | null : JSVal
  | bool (b : Bool) : JSVal
  | num (n : Int) : JSVal
  | nan : JSVal
  | str (s : String) : JSVal
  | arr (items : List JSVal) : JSVal
  | obj (fields : List (String × JSVal)) : JSVal

/-- JavaScript truthiness of a value (`if (v)`). -/
def truthy : JSVal → Bool
  | .undefined => false
  | .null => false
  | .bool b => b
  | .num n => n != 0
  | .nan => false
  | .str s => s != ""
  | .arr _ => true
  | .obj _ => true

/-- JavaScript `a || b`: the left operand when truthy, the right one otherwise. -/
def jsOr (a b : JSVal) : JSVal := if truthy a then a else b

/-- Field lookup in an object's association list: the value of the first
entry carrying the key. -/
def objGet : List (String × JSVal) → String → Option JSVal
  | [], _ => none
  | (k, v) :: rest, key => if k = key then some v else objGet rest key

/-- Field lookup defaulting to `undefined`, as a JavaScript member access on an
object yields `undefined` for an absent key. -/
def objGetD (fields : List (String × JSVal)) (key : String) : JSVal :=
  (objGet fields key).getD .undefined

/-- JavaScript property write `o[key] = v`: an existing key keeps its position
and receives the new value, a new key is appended. -/
def objSet : List (String × JSVal) → String → JSVal → List (String × JSVal)
  | [], key, v => [(key, v)]
  | (k, w) :: rest, key, v =>
    if k = key then (k, v) :: rest else (k, w) :: objSet rest key v

/-- JavaScript `delete o[key]`. -/
def objDelete : List (String × JSVal) → String → List (String × JSVal)
  | [], _ => []
  | (k, v) :: rest, key =>
    if k = key then objDelete rest key else (k, v) :: objDelete rest key

/-- JavaScript member access `v.key`: field lookup on an object, `undefined` on
the primitives the adapter meets (member access on `null`/`undefined`, which
would throw, is not exercised by any claim). -/
def jsField (v : JSVal) (key : String) : JSVal :=
  match v with
  | .obj fields => objGetD fields key
  | _ => .undefined

/-- Field lookup through a `JSVal` (none on a non-object). -/
def jsObjGet (v : JSVal) (key : String) : Option JSVal :=
  match v with
  | .obj fields => objGet fields key
  | _ => none

/-! ## `StripeAdapter.getLimit` (transfer.js lines 111-124) -/

/-- `Number.MAX_VALUE` as an exact integer, `(2^53 - 1) * 2^971`. -/
def jsMaxValue : Int := (2 ^ 53 - 1) * 2 ^ 971

/-- JavaScript `typeof v === 'number'` (true of `NaN` as well). -/
def isJsNumber : JSVal → Bool
  | .num _ => true
  | .nan => true
  | _ => false

/-- The guard `typeof limit === 'number' && !isNaN(limit)` from `getLimit`. -/
def isNumNotNaN : JSVal → Bool
  | .num _ => true
  | _ => false

/-- `Math.min` on the values `getLimit` feeds it: the minimum of two finite
numbers, `NaN` when an operand is not a finite number.  (The `ToNumber`
coercion of strings and booleans is outside the model; `getLimit` only reaches
this with numeric operands under every claim.) -/
def mathMin : JSVal → JSVal → JSVal
  | .num a, .num b => .num (min a b)
  | _, _ => .nan

/-- JavaScript strict equality with the literal `false` (`v === false`). -/
def strictEqFalse : JSVal → Bool
  | .bool false => true
  | _ => false

/-- Embedding of `StripeAdapter.getLimit(limit, paramsPaginate)`;
`options` stands for `this.options`. -/
def getLimit (options limit paramsPaginate : JSVal) : JSVal :=
  if strictEqFalse paramsPaginate then
    limit
  else
    let paginate := jsField options "paginate"
    if truthy paginate && (truthy (jsField paginate "default") || truthy (jsField paginate "max")) then
      let base := jsOr (jsField paginate "default") (.num 0)
      let lower := if isNumNotNaN limit then limit else base
      let upper :=
        if isJsNumber (jsField paginate "max") then jsField paginate "max"
        else .num jsMaxValue
      mathMin lower upper
    else
      limit

/-- An options object carrying the pagination policy `{default: D, max: M}`. -/
def policyOptions (D M : Int) : JSVal :=
  .obj [("paginate", .obj [("default", .num D), ("max", .num M)])]

/-- The claim's "L-or-D": the requested limit when it is a number, the policy
default otherwise.  (Stated from the spec's words, to be compared with the
source's `getLimit`.) -/
def specLimitOrDefault (L : JSVal) (D : Int) : Int :=
  match L with
  | .num n => n
  | _ => D

/-! ## `StripeAdapter.handleError` (transfer.js lines 189-228) -/

/-- The feathers error values `handleError` can produce: the six wrapped
categories, or the incoming error itself when its `type` is absent or falsy. -/
inductive MappedError : Type where
  | paymentError (e : JSVal)
  | badRequest (e : JSVal)
  | unavailable (e : JSVal)
  | notAuthenticated (e : JSVal)
  | tooManyRequests (e : JSVal)
  | generalError (msg : String) (e : JSVal)
  | untranslated (e : JSVal)

/-- Outcome of a promise an adapter method hands back: resolved with a value
or rejected with a (possibly remapped) error. -/
inductive AdapterPromise : Type where
  | resolved (v : JSVal)
  | rejected (e : MappedError)

/-- Strict string comparison of a discriminator value against one `case` label
of the `switch` (`error.type` compared with a string literal). -/
def typeIs (t : JSVal) (s : String) : Bool :=
  match t with
  | .str x => x = s
  | _ => false

/-- The `switch (error.type)` body of `handleError`: each known discriminator
to its feathers error, an unmatched one to the `default` arm. -/
def mapStripeError (t error : JSVal) : MappedError :=
  if typeIs t "StripeCardError" then .paymentError error
  else if typeIs t "StripeInvalidRequestError" then .badRequest error
  else if typeIs t "StripeInvalidRequest" then .badRequest error
  else if typeIs t "StripeAPIError" then .unavailable error
  else if typeIs t "StripeConnectionError" then .unavailable error
  else if typeIs t "StripeAuthenticationError" then .notAuthenticated error
  else if typeIs t "StripeRateLimitError" then .tooManyRequests error
  else .generalError "Unknown Payment Gateway Error" error

/-- Embedding of `StripeAdapter.handleError(error)`: the switch runs only when
`error.type` is truthy, and the result is always `Promise.reject(...)`. -/
def handleError (error : JSVal) : AdapterPromise :=
  let t := jsField error "type"
  if truthy t then .rejected (mapStripeError t error)
  else .rejected (.untranslated error)

/-! ## `StripeAdapter.cleanQuery` (transfer.js lines 126-143) -/

/-- JavaScript `key.startsWith('$')`. -/
def startsWithDollar (s : String) : Bool :=
  match s.data with
  | c :: _ => c = '$'
  | [] => false

/-- Removal of the first `'$'` of a character list, the behaviour of the
string method `replace('$', '')`. -/
def removeFirstDollar : List Char → List Char
  | [] => []
  | c :: cs => if c = '$' then cs else c :: removeFirstDollar cs

/-- JavaScript `key.replace('$', '')`: drop the first occurrence of `'$'`. -/
def replaceFirstDollar (s : String) : String :=
  String.mk (removeFirstDollar s.data)

/-- The output key an entry of a query object is written to by `cleanQuery`:
the key with its leading `'$'` removed when it has one, the key itself
otherwise. -/
def targetKey (k : String) : String :=
  if startsWithDollar k then replaceFirstDollar k else k

mutual

/-- Embedding of `StripeAdapter.cleanQuery(query)`: arrays element-wise,
objects through `cleanEntries`, everything else unchanged. -/
def cleanQuery : JSVal → JSVal
  | .arr items => .arr (cleanList items)
  | .obj fields => .obj (cleanEntries fields fields)
  | v => v

/-- The `query.map((item) => this.cleanQuery(item))` branch of `cleanQuery`. -/
def cleanList : List JSVal → List JSVal
  | [] => []
  | x :: xs => cleanQuery x :: cleanList xs

/-- The `Object.entries(result).forEach(...)` loop of `cleanQuery`: `result`
starts as a copy of the object and is walked over the snapshot of its entries;
a `$`-prefixed key is deleted and rewritten under the stripped key, any other
key is rewritten in place, the value being cleaned recursively either way. -/
def cleanEntries (result : List (String × JSVal)) :
    List (String × JSVal) → List (String × JSVal)
  | [] => result
  | (key, value) :: rest =>
    let next :=
      if startsWithDollar key then
        objSet (objDelete result key) (replaceFirstDollar key) (cleanQuery value)
      else
        objSet result key (cleanQuery value)
    cleanEntries next rest

end

/-! ## `StripeAdapter.filterQuery` / `filterParams` (transfer.js lines 145-161) -/

/-- `Object.assign({}, v)`: the own fields of an object, nothing for
`null`/`undefined` (the only non-object inputs the adapter meets). -/
def assignFields (v : JSVal) : List (String × JSVal) :=
  match v with
  | .obj fields => fields
  | _ => []

/-- Embedding of `StripeAdapter.filterQuery(params)`; `options` stands for
`this.options`. -/
def filterQuery (options params : JSVal) : JSVal :=
  let query := assignFields (jsField params "query")
  let limit := jsOr (objGetD query "$limit") (objGetD query "limit")
  let query' :=
    if truthy limit then
      objDelete
        (objSet query "limit" (getLimit options limit (jsField params "paginate")))
        "$limit"
    else query
  cleanQuery (.obj query')

/-! ## `StripeAdapter.handlePaginate` (transfer.js lines 163-187) -/

/-- A pending SDK call as `handlePaginate` receives it: the value the promise
settles to when simply awaited, and, when the operation supports
`autoPagingEach`, the full stream of page-iterated results. -/
structure StripeMethod : Type where
  value : JSVal
  autoPaging : Option (List JSVal)

/-- Outcome of `handlePaginate`: the stripe promise passed through, the array
accumulated by `autoPagingEach`, or the thrown `MethodNotAllowed` (an async
function, so the throw surfaces as a rejected promise). -/
inductive PaginateResult : Type where
  | passedThrough (m : StripeMethod)
  | collected (results : List JSVal)
  | methodNotAllowed (msg : String)

/-- Embedding of `StripeAdapter.handlePaginate({ paginate }, stripeMethod)`. -/
def handlePaginate (paginate : JSVal) (stripeMethod : StripeMethod) : PaginateResult :=
  if truthy paginate then .passedThrough stripeMethod
  else
    match stripeMethod.autoPaging with
    | some results => .collected results
    | none => .methodNotAllowed "Cannot use paginate: false on this method"

/-! ## `StripeAdapter.$patch` and friends (transfer.js lines 66-109) -/

/-- A promise as an underscore method returns it, before any `.catch`. -/
inductive PromiseJS : Type where
  | resolved (v : JSVal)
  | rejected (e : JSVal)

/-- `.catch(this.handleError)` on an underscore method's promise: a resolved
value passes through, a rejection is remapped by `handleError` (whose own
result is a rejected promise). -/
def catchHandleError : PromiseJS → AdapterPromise
  | .resolved v => .resolved v
  | .rejected e => handleError e

/-- Result of a `$`-verb of `StripeAdapter`: the (caught) promise, or the
synchronously thrown `NotImplemented`. -/
inductive AdapterCallResult : Type where
  | ok (r : AdapterPromise)
  | notImplemented (msg : String)

/-- Embedding of `StripeAdapter.$update`: `_update` may be absent, in which
case `NotImplemented` is thrown. -/
def dollarUpdate (updateImpl : Option (List JSVal → PromiseJS))
    (args : List JSVal) : AdapterCallResult :=
  match updateImpl with
  | some u => .ok (catchHandleError (u args))
  | none => .notImplemented "Update method not implemented"

/-- Embedding of `StripeAdapter.$patch`: `_patch` when present, else `_update`
when present, else a thrown `NotImplemented`. -/
def dollarPatch (patchImpl updateImpl : Option (List JSVal → PromiseJS))
    (args : List JSVal) : AdapterCallResult :=
  match patchImpl with
  | some p => .ok (catchHandleError (p args))
  | none =>
    match updateImpl with
    | some u => .ok (catchHandleError (u args))
    | none => .notImplemented "Patch method not implemented"

/-! ## The legacy transfers `Service` (transfer.js lines 5-40) -/

/-- The SDK call a transfers-service verb issues against `stripe.transfers`.
The `del` constructor stands for the deletion endpoint the SDK offers; the
service never issues it. -/
inductive TransfersCall : Type where
  | list (query : JSVal)
  | retrieve (id : String)
  | create (data : JSVal)
  | update (id : String) (data : JSVal)
  | createReversal (id : String)
  | del (id : String)

/-- `Service.update(id, data)` of the transfers service calls
`stripe.transfers.update(id, data)`. -/
def transfersUpdate (id : String) (data : JSVal) : TransfersCall :=
  .update id data

/-- `Service.patch(...args)` of the transfers service forwards every argument
to `this.update`. -/
def transfersPatch (id : String) (data : JSVal) : TransfersCall :=
  transfersUpdate id data

/-- `Service.remove(id)` of the transfers service calls
`stripe.transfers.createReversal(id)`. -/
def transfersRemove (id : String) : TransfersCall :=
  .createReversal id

/-! ## The prices `Service` (price.js lines 5-47) -/

/-- The SDK call a prices-service verb issues against `stripe.prices`. -/
inductive PricesCall : Type where
  | list (query : JSVal)
  | retrieve (id : String)
  | create (data : JSVal)
  | update (id : String) (data : JSVal)

/-- `Service._update(id, data)` of the prices service calls
`stripe.prices.update(id, data)`. -/
def pricesUpdate (id : String) (data : JSVal) : PricesCall :=
  .update id data

/-- `Service._patch(...args)` of the prices service forwards every argument to
`this._update`, and `patch` forwards to `_patch`. -/
def pricesPatch (id : String) (data : JSVal) : PricesCall :=
  pricesUpdate id data

/-! ## The legacy orders `Service.patch` (price.js lines 75-88) -/

/-- The SDK calls `Service.patch(id, data)` of the orders service issues: the
optional fire-and-forget `stripe.orders.pay(id, payload)` and the
`stripe.orders.update(id, data)` behind `this.update`. -/
structure OrdersPatchTrace : Type where
  payCall : Option (String × JSVal)
  updateCall : String × JSVal

/-- JavaScript `delete copy.key` after `Object.assign({}, v)`: the object with
the field removed (a non-object copies to an empty object, never reached by
the orders `patch`). -/
def jsDeleteField (v : JSVal) (key : String) : JSVal :=
  match v with
  | .obj fields => .obj (objDelete fields key)
  | _ => .obj []

/-- The calls issued by `Service.patch(id, data)` of the orders service: when
`data.pay` is truthy, `stripe.orders.pay` receives a copy of `data` with the
`pay` field deleted; `this.update(id, data)` always receives the original
`data`. -/
def ordersPatchTrace (id : String) (data : JSVal) : OrdersPatchTrace :=
  { payCall :=
      if truthy (jsField data "pay") then some (id, jsDeleteField data "pay")
      else none,
    updateCall := (id, data) }

/-- Embedding of the whole of `Service.patch(id, data)` of the orders service.
`payImpl` and `updateImpl` are the SDK's `orders.pay` and `orders.update`
(each already composed with its `.catch(errorHandler)`).  The source never
awaits the `pay` promise and discards it, so the returned promise is the
update's alone (`payImpl` is deliberately unused); the trace records which
calls were issued. -/
def ordersPatch (payImpl updateImpl : String → JSVal → PromiseJS)
    (id : String) (data : JSVal) : OrdersPatchTrace × PromiseJS :=
  (ordersPatchTrace id data, updateImpl id data)

/-! ## Constructors (transfer.js lines 6-13 and 46-64) -/

/-- The stripe client handle a service ends up with: one built by
`Stripe(secretKey)`, or the pre-constructed one passed in options. -/
inductive StripeClient : Type where
  | fromKey (key : JSVal)
  | provided (handle : JSVal)

/-- State of a constructed legacy transfers `Service`. -/
structure LegacyService : Type where
  stripe : StripeClient
  paginate : JSVal

/-- Embedding of the legacy transfers `Service` constructor: it throws
synchronously when `options.secretKey` is falsy, otherwise builds the client
from the key (and resets `paginate` to `{}`).  The whole body is
straight-line synchronous code; no SDK call is made before the check. -/
def legacyServiceConstructor (options : JSVal) : Except String LegacyService :=
  if !truthy (jsField options "secretKey") then
    .error "Stripe `secretKey` needs to be provided"
  else
    .ok { stripe := .fromKey (jsField options "secretKey"), paginate := .obj [] }

/-- The default pagination policy `{ default: 10, max: 100 }` of
`StripeAdapter`. -/
def defaultPaginate : JSVal :=
  .obj [("default", .num 10), ("max", .num 100)]

/-- The spread `{ paginate: {default: 10, max: 100}, ...options }`: the
defaults first, then every field of `options` written over them.  (Spreading
`null`/`undefined` contributes nothing; other primitives are not met here.) -/
def mergeAdapterOptions (options : JSVal) : List (String × JSVal) :=
  match options with
  | .obj fields => fields.foldl (fun acc kv => objSet acc kv.1 kv.2) [("paginate", defaultPaginate)]
  | _ => [("paginate", defaultPaginate)]

/-- State of a constructed `StripeAdapter`. -/
structure AdapterService : Type where
  options : List (String × JSVal)
  stripe : StripeClient

/-- Embedding of the `StripeAdapter` constructor: after merging the pagination
defaults it throws synchronously when neither `opts.secretKey` nor
`opts.stripe` is truthy, and otherwise keeps the provided client or builds one
from the key.  The body is synchronous; no SDK call precedes the check. -/
def adapterConstructor (options : JSVal) : Except String AdapterService :=
  let opts := mergeAdapterOptions options
  if !truthy (objGetD opts "secretKey") && !truthy (objGetD opts "stripe") then
    .error "Stripe service option `secretKey` or `stripe` needs to be provided"
  else
    .ok { options := opts,
          stripe :=
            if truthy (objGetD opts "stripe") then .provided (objGetD opts "stripe")
            else .fromKey (objGetD opts "secretKey") }

/-! ## Derived notions used by the specifications -/

/-- The seven vendor discriminator strings of the `switch` in `handleError`. -/
def knownStripeErrorTypes : List String :=
  ["StripeCardError", "StripeInvalidRequestError", "StripeInvalidRequest",
   "StripeAPIError", "StripeConnectionError", "StripeAuthenticationError",
   "StripeRateLimitError"]

/-- A scalar query value: neither a list nor a key-value mapping. -/
def isScalarJS : JSVal → Bool
  | .arr _ => false
  | .obj _ => false
  | _ => true

/-- No two distinct entries of a query object write to, or delete, the same
output key of `cleanQuery`: every pair of entries with different keys has
different target keys, and no entry's key equals another entry's target key. -/
def NoCollisions (fields : List (String × JSVal)) : Prop :=
  ∀ a ∈ fields, ∀ b ∈ fields, a.1 ≠ b.1 →
    targetKey a.1 ≠ targetKey b.1 ∧ a.1 ≠ targetKey b.1

/-! ## Lemmas about object field access -/

theorem objGet_objSet_self (fs : List (String × JSVal)) (k : String) (v : JSVal) :
    objGet (objSet fs k v) k = some v := by
  induction fs with
  | nil => simp [objSet, objGet]
  | cons a rest ih =>
    obtain ⟨k1, v1⟩ := a
    by_cases h : k1 = k <;> simp [objSet, objGet, h, ih]

theorem objGet_objSet_ne (fs : List (String × JSVal)) (k k' : String) (v : JSVal)
    (h : k' ≠ k) : objGet (objSet fs k v) k' = objGet fs k' := by
  have h' : ¬ k = k' := fun hh => h hh.symm
  induction fs with
  | nil => simp [objSet, objGet, h']
  | cons a rest ih =>
    obtain ⟨k1, v1⟩ := a
    by_cases h1 : k1 = k
    · subst h1
      simp [objSet, objGet, h']
    · by_cases h2 : k1 = k' <;> simp [objSet, objGet, h1, h2, h, ih]

theorem objGet_objDelete_ne (fs : List (String × JSVal)) (k k' : String)
    (h : k' ≠ k) : objGet (objDelete fs k) k' = objGet fs k' := by
  have h' : ¬ k = k' := fun hh => h hh.symm
  induction fs with
  | nil => simp [objDelete]
  | cons a rest ih =>
    obtain ⟨k1, v1⟩ := a
    by_cases h1 : k1 = k
    · subst h1
      simp [objDelete, objGet, h', ih]
    · by_cases h2 : k1 = k' <;> simp [objDelete, objGet, h1, h2, h, ih]

theorem objGet_eq_none (fs : List (String × JSVal)) (k : String)
    (h : ∀ a ∈ fs, a.1 ≠ k) : objGet fs k = none := by
  induction fs with
  | nil => rfl
  | cons a rest ih =>
    obtain ⟨k1, v1⟩ := a
    have hk1 : k1 ≠ k := h (k1, v1) (by simp)
    exact (by simp [objGet, hk1, ih fun b hb => h b (by simp [hb])])

theorem objGet_eq_some_of_mem (fs : List (String × JSVal)) (k : String) (v : JSVal)
    (hnd : (fs.map Prod.fst).Nodup) (hmem : (k, v) ∈ fs) : objGet fs k = some v := by
  induction fs with
  | nil => cases hmem
  | cons a rest ih =>
    obtain ⟨k1, v1⟩ := a
    simp only [List.map_cons, List.nodup_cons] at hnd
    rcases List.mem_cons.mp hmem with heq | htail
    · cases heq
      simp [objGet]
    · have hk1 : k1 ≠ k := by
        intro hh
        exact hnd.1 (hh ▸ List.mem_map.mpr ⟨(k, v), htail, rfl⟩)
      simp [objGet, hk1, ih hnd.2 htail]

/-! ## Lemmas about the `cleanQuery` entry loop -/

theorem cleanEntries_nil (result : List (String × JSVal)) :
    cleanEntries result [] = result := by
  simp [cleanEntries]

theorem cleanEntries_cons (result : List (String × JSVal)) (key : String)
    (value : JSVal) (rest : List (String × JSVal)) :
    cleanEntries result ((key, value) :: rest)
      = cleanEntries
          (if startsWithDollar key then
            objSet (objDelete result key) (replaceFirstDollar key) (cleanQuery value)
          else objSet result key (cleanQuery value)) rest := by
  simp [cleanEntries]

/-- An entry whose key and target key both differ from `t` leaves the field
`t` of the running result untouched; hence a loop of such entries does. -/
theorem cleanEntries_get_untouched (t : String) :
    ∀ (entries result : List (String × JSVal)),
      (∀ a ∈ entries, targetKey a.1 ≠ t ∧ a.1 ≠ t) →
      objGet (cleanEntries result entries) t = objGet result t := by
  intro entries
  induction entries with
  | nil => intro r _; simp [cleanEntries_nil]
  | cons a rest ih =>
    intro r h
    obtain ⟨k, v⟩ := a
    have hk := h (k, v) (by simp)
    have hrest : ∀ a ∈ rest, targetKey a.1 ≠ t ∧ a.1 ≠ t :=
      fun b hb => h b (by simp [hb])
    rw [cleanEntries_cons]
    by_cases hd : startsWithDollar k
    · have htgt : replaceFirstDollar k ≠ t := by
        simpa [targetKey, hd] using hk.1
      rw [if_pos hd, ih _ hrest, objGet_objSet_ne _ _ _ _ (fun hh => htgt hh.symm),
        objGet_objDelete_ne _ _ _ (fun hh => hk.2 hh.symm)]
    · have htgt : k ≠ t := by simpa [targetKey, hd] using hk.1
      rw [if_neg hd, ih _ hrest, objGet_objSet_ne _ _ _ _ (fun hh => htgt hh.symm)]

/-- The entry loop writes the cleaned value of an entry to its target key,
and no other entry touching that key exists, so the final result carries it. -/
theorem cleanEntries_get (t : String) :
    ∀ (entries result : List (String × JSVal)) (k : String) (v : JSVal),
      (entries.map Prod.fst).Nodup →
      (k, v) ∈ entries →
      targetKey k = t →
      (∀ a ∈ entries, a.1 ≠ k → targetKey a.1 ≠ t ∧ a.1 ≠ t) →
      objGet (cleanEntries result entries) t = some (cleanQuery v) := by
  intro entries
  induction entries with
  | nil => intro r k v _ hmem; cases hmem
  | cons a rest ih =>
    intro r k v hnd hmem htgt hothers
    obtain ⟨k1, v1⟩ := a
    simp only [List.map_cons, List.nodup_cons] at hnd
    by_cases hk1 : k1 = k
    · subst hk1
      have hv1 : v1 = v := by
        rcases List.mem_cons.mp hmem with heq | htail
        · exact (Prod.mk.injEq .. ▸ heq).2.symm
        · exact absurd (List.mem_map.mpr ⟨(k1, v), htail, rfl⟩) hnd.1
      subst hv1
      have hrest : ∀ a ∈ rest, targetKey a.1 ≠ t ∧ a.1 ≠ t := by
        intro b hb
        have hbk : b.1 ≠ k1 := by
          intro hh
          exact hnd.1 (hh ▸ List.mem_map.mpr ⟨b, hb, rfl⟩)
        exact hothers b (by simp [hb]) hbk
      rw [cleanEntries_cons, cleanEntries_get_untouched t rest _ hrest]
      by_cases hd : startsWithDollar k1
      · have ht' : replaceFirstDollar k1 = t := by simpa [targetKey, hd] using htgt
        rw [if_pos hd, ht', objGet_objSet_self]
      · have ht' : k1 = t := by simpa [targetKey, hd] using htgt
        rw [if_neg hd, ht', objGet_objSet_self]
    · have htail : (k, v) ∈ rest := by
        rcases List.mem_cons.mp hmem with heq | htail
        · exact absurd (Prod.mk.injEq .. ▸ heq).1.symm hk1
        · exact htail
      rw [cleanEntries_cons]
      exact ih _ k v hnd.2 htail htgt
        (fun b hb hbk => hothers b (by simp [hb]) hbk)

/-- The map branch of `cleanQuery` is `List.map`. -/
theorem cleanList_eq_map : ∀ items : List JSVal, cleanList items = items.map cleanQuery := by
  intro items
  induction items with
  | nil => simp [cleanList]
  | cons x xs ih => simp [cleanList, ih]

/-! ## Auxiliary facts about keys -/

/-- A key other than `t` and other than `"$" ++ t` cannot have `t` as its
target key. -/
theorem targetKey_ne (k t : String) (h1 : k ≠ t)
    (h2 : k ≠ String.mk ('$' :: t.data)) : targetKey k ≠ t := by
  unfold targetKey
  by_cases hd : startsWithDollar k
  · rw [if_pos hd]
    intro hrep
    obtain ⟨data⟩ := k
    match data, hd with
    | c :: cs, hd =>
      have hc : c = '$' := by simpa [startsWithDollar] using hd
      subst hc
      apply h2
      simp only [replaceFirstDollar, removeFirstDollar, if_pos rfl] at hrep
      simp [← hrep]
  · rw [if_neg hd]
    exact h1

/-- Strict equality with `false` only holds of the boolean `false`. -/
theorem strictEqFalse_of_ne (pp : JSVal) (h : pp ≠ .bool false) :
    strictEqFalse pp = false := by
  cases pp with
  | bool b =>
    cases b with
    | false => exact absurd rfl h
    | true => rfl
  | undefined => rfl
  | null => rfl
  | num n => rfl
  | nan => rfl
  | str s => rfl
  | arr items => rfl
  | obj fields => rfl

/-- JavaScript `D || 0` on a number is the number itself. -/
theorem jsOr_num_zero (D : Int) : jsOr (.num D) (.num 0) = .num D := by
  by_cases h : D = 0 <;> simp [jsOr, truthy, h]

/-- Claim C1 (amended).  Under a pagination policy `{default: D, max: M}` in
which at least one of `D`, `M` is nonzero (truthy), `getLimit(L, pp)` returns
`min(L-or-D, M)` — `L-or-D` being `L` when `L` is a number and `D` otherwise —
for every `pp` other than the literal `false`; and when `pp` is explicitly
`false` the requested limit passes through unchanged (under any options).
When `D` and `M` are both `0` the policy guard fails and the limit also passes
through unclamped, which is the correction to the original claim. -/
theorem getLimit_spec (D M : Int) (hDM : D ≠ 0 ∨ M ≠ 0) :
    (∀ L pp : JSVal, pp ≠ .bool false →
      getLimit (policyOptions D M) L pp = .num (min (specLimitOrDefault L D) M)) ∧
    (∀ options L : JSVal, getLimit options L (.bool false) = L) := by
  constructor
  · intro L pp hpp
    have hpf := strictEqFalse_of_ne pp hpp
    have hg : ((D != 0) || (M != 0)) = true := by
      rcases hDM with h | h <;> simp [h]
    cases L <;>
      simp [getLimit, hpf, policyOptions, jsField, objGetD, objGet, truthy, hg,
        jsOr_num_zero, isNumNotNaN, isJsNumber, mathMin, specLimitOrDefault]
  · intro options L
    simp [getLimit, strictEqFalse]

/-- Claim C1, witness: the spec's own example, requested limit 500 under
policy `{default: 10, max: 100}` with pagination not disabled, clamps to 100. -/
theorem getLimit_spec_witness :
    getLimit (policyOptions 10 100) (.num 500) .undefined = .num 100 := by
  have h := (getLimit_spec 10 100 (Or.inl (by decide))).1 (.num 500) .undefined (by simp)
  simpa [specLimitOrDefault] using h

/-- Claim C1, counterexample: under the degenerate policy
`{default: 0, max: 0}` the guard `paginate.default || paginate.max` is falsy,
so a requested limit of 5 passes through instead of clamping to
`min(5, 0) = 0` as the claim as stated requires. -/
theorem getLimit_zero_policy_counterexample :
    getLimit (policyOptions 0 0) (.num 5) .undefined = .num 5 ∧
    getLimit (policyOptions 0 0) (.num 5) .undefined ≠ .num (min (5 : Int) 0) := by
  refine ⟨rfl, ?_⟩
  rw [show getLimit (policyOptions 0 0) (.num 5) .undefined = .num 5 from rfl]
  simp

/-- A successful strict comparison pins the discriminator value. -/
theorem typeIs_eq {t : JSVal} {s : String} (h : typeIs t s = true) : t = .str s := by
  cases t <;> simp_all [typeIs]

/-- Claim C2 (amended).  For every error object: each of the seven known
discriminators maps to its table category (`StripeCardError` to
payment-declined, the two invalid-request spellings to bad-request,
`StripeAPIError` and `StripeConnectionError` to service-unavailable,
`StripeAuthenticationError` to not-authenticated, `StripeRateLimitError` to
too-many-requests); a truthy but unrecognized discriminator maps to the
generic unknown-gateway-error fallback; an absent or falsy discriminator
propagates the original error object unchanged (the correction: it is not
mapped to the generic fallback); and the result is always a rejected
asynchronous result, never a synchronous throw. -/
theorem handleError_spec (fields : List (String × JSVal)) :
    (typeIs (objGetD fields "type") "StripeCardError" = true →
      handleError (.obj fields) = .rejected (.paymentError (.obj fields))) ∧
    (typeIs (objGetD fields "type") "StripeInvalidRequestError" = true →
      handleError (.obj fields) = .rejected (.badRequest (.obj fields))) ∧
    (typeIs (objGetD fields "type") "StripeInvalidRequest" = true →
      handleError (.obj fields) = .rejected (.badRequest (.obj fields))) ∧
    (typeIs (objGetD fields "type") "StripeAPIError" = true →
      handleError (.obj fields) = .rejected (.unavailable (.obj fields))) ∧
    (typeIs (objGetD fields "type") "StripeConnectionError" = true →
      handleError (.obj fields) = .rejected (.unavailable (.obj fields))) ∧
    (typeIs (objGetD fields "type") "StripeAuthenticationError" = true →
      handleError (.obj fields) = .rejected (.notAuthenticated (.obj fields))) ∧
    (typeIs (objGetD fields "type") "StripeRateLimitError" = true →
      handleError (.obj fields) = .rejected (.tooManyRequests (.obj fields))) ∧
    (truthy (objGetD fields "type") = true →
      (∀ s ∈ knownStripeErrorTypes, typeIs (objGetD fields "type") s = false) →
      handleError (.obj fields)
        = .rejected (.generalError "Unknown Payment Gateway Error" (.obj fields))) ∧
    (truthy (objGetD fields "type") = false →
      handleError (.obj fields) = .rejected (.untranslated (.obj fields))) ∧
    (∃ m, handleError (.obj fields) = .rejected m) := by
  refine ⟨?_, ?_, ?_, ?_, ?_, ?_, ?_, ?_, ?_, ?_⟩
  · intro h
    simp [handleError, jsField, typeIs_eq h, truthy, mapStripeError, typeIs]
  · intro h
    simp [handleError, jsField, typeIs_eq h, truthy, mapStripeError, typeIs]
  · intro h
    simp [handleError, jsField, typeIs_eq h, truthy, mapStripeError, typeIs]
  · intro h
    simp [handleError, jsField, typeIs_eq h, truthy, mapStripeError, typeIs]
  · intro h
    simp [handleError, jsField, typeIs_eq h, truthy, mapStripeError, typeIs]
  · intro h
    simp [handleError, jsField, typeIs_eq h, truthy, mapStripeError, typeIs]
  · intro h
    simp [handleError, jsField, typeIs_eq h, truthy, mapStripeError, typeIs]
  · intro htr hnone
    have h1 := hnone "StripeCardError" (by simp [knownStripeErrorTypes])
    have h2 := hnone "StripeInvalidRequestError" (by simp [knownStripeErrorTypes])
    have h3 := hnone "StripeInvalidRequest" (by simp [knownStripeErrorTypes])
    have h4 := hnone "StripeAPIError" (by simp [knownStripeErrorTypes])
    have h5 := hnone "StripeConnectionError" (by simp [knownStripeErrorTypes])
    have h6 := hnone "StripeAuthenticationError" (by simp [knownStripeErrorTypes])
    have h7 := hnone "StripeRateLimitError" (by simp [knownStripeErrorTypes])
    simp [handleError, jsField, htr, mapStripeError, h1, h2, h3, h4, h5, h6, h7]
  · intro hf
    simp [handleError, jsField, hf]
  · by_cases h : truthy (objGetD fields "type")
    · exact ⟨mapStripeError (objGetD fields "type") (.obj fields),
        by simp [handleError, jsField, h]⟩
    · exact ⟨.untranslated (.obj fields), by simp [handleError, jsField, h]⟩

/-- Claim C2, witness: the spec's example, `{ type: "StripeRateLimitError" }`
maps to too-many-requests and is rejected. -/
theorem handleError_spec_witness :
    handleError (.obj [("type", .str "StripeRateLimitError")])
      = .rejected (.tooManyRequests (.obj [("type", .str "StripeRateLimitError")])) :=
  (handleError_spec [("type", .str "StripeRateLimitError")]).2.2.2.2.2.2.1 (by rfl)

/-- Claim C2, counterexample: an error with no `type` discriminator is
propagated unchanged (still rejected), not mapped to the generic
unknown-gateway-error fallback as the claim states. -/
theorem handleError_missing_type_counterexample :
    handleError (.obj []) = .rejected (.untranslated (.obj [])) ∧
    handleError (.obj [])
      ≠ .rejected (.generalError "Unknown Payment Gateway Error" (.obj [])) := by
  constructor
  · rfl
  · rw [show handleError (.obj []) = .rejected (.untranslated (.obj [])) from rfl]
    simp

/-- Claim C4 (confirmed).  With pagination disabled for the call and no
`autoPagingEach` on the SDK operation, `handlePaginate` fails with the
`MethodNotAllowed` error; with the capability present, the full stream of
page-iterated results is collected and returned; with pagination enabled
(truthy), the operation's promise is passed through. -/
theorem handlePaginate_spec :
    (∀ m : StripeMethod, m.autoPaging = none →
      handlePaginate (.bool false) m
        = .methodNotAllowed "Cannot use paginate: false on this method") ∧
    (∀ (m : StripeMethod) (results : List JSVal), m.autoPaging = some results →
      handlePaginate (.bool false) m = .collected results) ∧
    (∀ (paginate : JSVal) (m : StripeMethod), truthy paginate = true →
      handlePaginate paginate m = .passedThrough m) := by
  refine ⟨?_, ?_, ?_⟩
  · intro m hm
    simp [handlePaginate, truthy, hm]
  · intro m results hm
    simp [handlePaginate, truthy, hm]
  · intro paginate m hp
    simp [handlePaginate, hp]

/-- Claim C4, witness: a method without `autoPagingEach` under
`paginate: false` is rejected with `MethodNotAllowed`; one with it returns the
collected results; a truthy `paginate` passes the promise through. -/
theorem handlePaginate_spec_witness :
    handlePaginate (.bool false) ⟨.null, none⟩
      = .methodNotAllowed "Cannot use paginate: false on this method" ∧
    handlePaginate (.bool false) ⟨.null, some [.num 1, .num 2]⟩
      = .collected [.num 1, .num 2] ∧
    handlePaginate (.bool true) ⟨.num 3, none⟩ = .passedThrough ⟨.num 3, none⟩ :=
  ⟨handlePaginate_spec.1 ⟨.null, none⟩ rfl,
   handlePaginate_spec.2.1 ⟨.null, some [.num 1, .num 2]⟩ [.num 1, .num 2] rfl,
   handlePaginate_spec.2.2 (.bool true) ⟨.num 3, none⟩ rfl⟩

/-- Claim C5 (amended).  For the orders resource, an update payload whose
`pay` field is truthy triggers the separate `pay` action call on a copy of the
payload with the `pay` flag removed, while the update call still receives the
original payload; a payload whose `pay` field is absent or falsy triggers no
`pay` call.  The correction: the source tests `if (data.pay)` for truthiness,
so any truthy `pay` value — not only the literal `true` — triggers the call. -/
theorem ordersPatchTrace_spec (id : String) (data : JSVal) :
    (truthy (jsField data "pay") = true →
      (ordersPatchTrace id data).payCall = some (id, jsDeleteField data "pay") ∧
      (ordersPatchTrace id data).updateCall = (id, data)) ∧
    (truthy (jsField data "pay") = false →
      (ordersPatchTrace id data).payCall = none ∧
      (ordersPatchTrace id data).updateCall = (id, data)) := by
  constructor
  · intro h
    simp [ordersPatchTrace, h]
  · intro h
    simp [ordersPatchTrace, h]

/-- Claim C5, witness: the spec's example, payload `{pay: true, amount: 500}`
triggers a `pay` call with `{amount: 500}` while the update receives the
original payload. -/
theorem ordersPatchTrace_spec_witness :
    (ordersPatchTrace "or_1" (.obj [("pay", .bool true), ("amount", .num 500)])).payCall
      = some ("or_1", .obj [("amount", .num 500)]) ∧
    (ordersPatchTrace "or_1" (.obj [("pay", .bool true), ("amount", .num 500)])).updateCall
      = ("or_1", .obj [("pay", .bool true), ("amount", .num 500)]) := by
  have h := (ordersPatchTrace_spec "or_1"
    (.obj [("pay", .bool true), ("amount", .num 500)])).1 (by rfl)
  simpa [jsDeleteField, objDelete] using h

/-- Claim C5, counterexample: the payload `{pay: 1, amount: 500}` does not
contain `pay: true`, yet the truthiness test fires the `pay` call, refuting
the claim's "a payload without pay: true triggers no pay call". -/
theorem ordersPatchTrace_counterexample :
    jsField (.obj [("pay", .num 1), ("amount", .num 500)]) "pay" ≠ .bool true ∧
    (ordersPatchTrace "or_1" (.obj [("pay", .num 1), ("amount", .num 500)])).payCall
      ≠ none := by
  constructor
  · simp [jsField, objGetD, objGet]
  · simp [ordersPatchTrace, jsField, objGetD, objGet, truthy]

/-- Claim C6 (confirmed).  The promise returned by the orders `patch` is
exactly the one returned by the primary update call, whatever the `pay`
action's implementation resolves or rejects to: exchanging the `pay`
implementation never changes the result, even though the `pay` call is still
issued according to the trace, so a `pay` failure is silently dropped. -/
theorem ordersPatch_result_independent_of_pay
    (payImpl payImpl' updateImpl : String → JSVal → PromiseJS)
    (id : String) (data : JSVal) :
    (ordersPatch payImpl updateImpl id data).2 = updateImpl id data ∧
    (ordersPatch payImpl updateImpl id data).2
      = (ordersPatch payImpl' updateImpl id data).2 ∧
    (ordersPatch payImpl updateImpl id data).1 = ordersPatchTrace id data :=
  ⟨rfl, rfl, rfl⟩

/-- Claim C6, witness: with a `pay` implementation that rejects and one that
resolves, the patch result is the update's promise either way. -/
theorem ordersPatch_result_independent_of_pay_witness :
    (ordersPatch (fun _ _ => .rejected (.str "pay boom"))
      (fun _ _ => .resolved (.str "updated")) "or_1" (.obj [("pay", .bool true)])).2
      = (fun (_ : String) (_ : JSVal) => PromiseJS.resolved (.str "updated")) "or_1"
          (.obj [("pay", .bool true)]) :=
  (ordersPatch_result_independent_of_pay (fun _ _ => .rejected (.str "pay boom"))
    (fun _ _ => .resolved (.str "ignored")) (fun _ _ => .resolved (.str "updated"))
    "or_1" (.obj [("pay", .bool true)])).1

/-- Claim C7 (confirmed).  Wherever no distinct patch operation exists, patch
is update: the transfers service's `patch` forwards all arguments to `update`,
the prices service's `_patch` forwards to `_update`, the base adapter's
`$patch` without a `_patch` behaves exactly as `$update` when `_update`
exists, and `$patch` raises not-implemented precisely when neither `_patch`
nor `_update` exists. -/
theorem patch_falls_back_to_update :
    (∀ (id : String) (data : JSVal), transfersPatch id data = transfersUpdate id data) ∧
    (∀ (id : String) (data : JSVal), pricesPatch id data = pricesUpdate id data) ∧
    (∀ (u : List JSVal → PromiseJS) (args : List JSVal),
      dollarPatch none (some u) args = dollarUpdate (some u) args) ∧
    (∀ (p u : Option (List JSVal → PromiseJS)) (args : List JSVal),
      (∃ msg, dollarPatch p u args = .notImplemented msg) ↔ (p = none ∧ u = none)) := by
  refine ⟨fun _ _ => rfl, fun _ _ => rfl, fun _ _ => rfl, ?_⟩
  intro p u args
  cases p <;> cases u <;> simp [dollarPatch]

/-- Claim C7, witness: with only an `_update` implementation, `$patch` on a
concrete argument list is `$update`. -/
theorem patch_falls_back_to_update_witness :
    dollarPatch none (some fun _ => .resolved (.str "updated")) [.str "tr_1"]
      = dollarUpdate (some fun _ => .resolved (.str "updated")) [.str "tr_1"] :=
  patch_falls_back_to_update.2.2.1 _ _

/-- Claim C8 (confirmed).  `remove(id)` on the transfers service issues
`stripe.transfers.createReversal(id)`, not the SDK's deletion endpoint. -/
theorem transfersRemove_is_reversal (id : String) :
    transfersRemove id = .createReversal id ∧ transfersRemove id ≠ .del id :=
  ⟨rfl, by simp [transfersRemove]⟩

/-- Claim C8, witness: removing transfer `"tr_1"` issues a reversal. -/
theorem transfersRemove_is_reversal_witness :
    transfersRemove "tr_1" = .createReversal "tr_1" ∧
    transfersRemove "tr_1" ≠ .del "tr_1" :=
  transfersRemove_is_reversal "tr_1"

/-- Looking a key up after folding `objSet` over a list of entries: the last
write of the key wins, which under key uniqueness is the entry's value, and an
absent key falls through to the start object. -/
theorem objGet_foldl_objSet :
    ∀ (fs base : List (String × JSVal)) (k : String),
      (fs.map Prod.fst).Nodup →
      objGet (fs.foldl (fun acc kv => objSet acc kv.1 kv.2) base) k
        = (objGet fs k).elim (objGet base k) some := by
  intro fs
  induction fs with
  | nil => intro base k _; simp [objGet]
  | cons a rest ih =>
    intro base k hnd
    obtain ⟨k1, v1⟩ := a
    simp only [List.map_cons, List.nodup_cons] at hnd
    rw [List.foldl_cons, ih (objSet base k1 v1) k hnd.2]
    by_cases h : k1 = k
    · subst h
      have hr : objGet rest k1 = none := by
        apply objGet_eq_none
        intro b hb hbk
        exact hnd.1 (hbk ▸ List.mem_map.mpr ⟨b, hb, rfl⟩)
      simp [objGet, hr, objGet_objSet_self]
    · cases hrk : objGet rest k <;>
        simp [objGet, h, hrk, objGet_objSet_ne _ _ _ _ (Ne.symm h)]

/-- Claim C9 (confirmed).  Construction fails — by a synchronous throw, the
constructors being straight-line synchronous code that performs no SDK call
before the check — exactly when the configuration carries neither a truthy
`secretKey` nor (for the base adapter) a truthy pre-constructed `stripe`
handle; the legacy transfers service has no `stripe` option and requires a
truthy `secretKey`. -/
theorem constructor_requires_credentials (fs : List (String × JSVal))
    (hnd : (fs.map Prod.fst).Nodup) :
    ((∃ msg, adapterConstructor (.obj fs) = .error msg) ↔
      (truthy (objGetD fs "secretKey") = false ∧ truthy (objGetD fs "stripe") = false)) ∧
    ((∃ msg, legacyServiceConstructor (.obj fs) = .error msg) ↔
      truthy (objGetD fs "secretKey") = false) := by
  have hmerge : ∀ k : String, ¬ "paginate" = k →
      objGet (mergeAdapterOptions (.obj fs)) k = objGet fs k := by
    intro k hk
    rw [show mergeAdapterOptions (.obj fs)
          = fs.foldl (fun acc kv => objSet acc kv.1 kv.2) [("paginate", defaultPaginate)]
        from rfl,
      objGet_foldl_objSet fs _ k hnd]
    cases h : objGet fs k <;> simp [objGet, hk, h]
  have hsk : objGetD (mergeAdapterOptions (.obj fs)) "secretKey" = objGetD fs "secretKey" := by
    rw [objGetD, objGetD, hmerge _ (by decide)]
  have hst : objGetD (mergeAdapterOptions (.obj fs)) "stripe" = objGetD fs "stripe" := by
    rw [objGetD, objGetD, hmerge _ (by decide)]
  constructor
  · by_cases h1 : truthy (objGetD fs "secretKey") <;>
      by_cases h2 : truthy (objGetD fs "stripe") <;>
        simp [adapterConstructor, hsk, hst, h1, h2]
  · by_cases h1 : truthy (objGetD fs "secretKey") <;>
      simp [legacyServiceConstructor, jsField, h1]

/-- Claim C9, witness: an empty configuration makes the adapter constructor
throw, and a configuration carrying only a pre-constructed client handle still
makes the legacy transfers constructor (which requires `secretKey`) throw. -/
theorem constructor_requires_credentials_witness :
    (∃ msg, adapterConstructor (.obj []) = .error msg) ∧
    (∃ msg, legacyServiceConstructor (.obj [("stripe", .str "client")]) = .error msg) :=
  ⟨(constructor_requires_credentials [] (by simp)).1.mpr ⟨rfl, rfl⟩,
   (constructor_requires_credentials [("stripe", .str "client")] (by simp)).2.mpr rfl⟩

/-- Claim C3 (amended).  `cleanQuery` normalizes lists element-wise and leaves
scalars unchanged; in a key-value mapping, each key beginning with `'$'`
appears in the output under the stripped key with its value normalized
recursively, provided no other entry of the mapping writes to or deletes that
stripped key (the correction: with such a collision — for example a mapping
carrying both `$limit` and `limit` — a later entry overwrites or removes the
stripped key, so the claim's unconditional statement fails). -/
theorem cleanQuery_spec :
    (∀ items : List JSVal, cleanQuery (.arr items) = .arr (items.map cleanQuery)) ∧
    (∀ v : JSVal, isScalarJS v = true → cleanQuery v = v) ∧
    (∀ (fs : List (String × JSVal)) (k : String) (v : JSVal),
      (fs.map Prod.fst).Nodup →
      (k, v) ∈ fs →
      startsWithDollar k = true →
      NoCollisions fs →
      jsObjGet (cleanQuery (.obj fs)) (replaceFirstDollar k) = some (cleanQuery v)) := by
  refine ⟨?_, ?_, ?_⟩
  · intro items
    simp [cleanQuery, cleanList_eq_map]
  · intro v hv
    cases v <;> simp_all [cleanQuery, isScalarJS]
  · intro fs k v hnd hmem hd hnc
    have ht : targetKey k = replaceFirstDollar k := by simp [targetKey, hd]
    have hothers : ∀ a ∈ fs, a.1 ≠ k →
        targetKey a.1 ≠ replaceFirstDollar k ∧ a.1 ≠ replaceFirstDollar k := by
      intro a ha hak
      have := hnc a ha (k, v) hmem hak
      rw [ht] at this
      exact this
    have := cleanEntries_get (replaceFirstDollar k) fs fs k v hnd hmem ht hothers
    simpa [cleanQuery, jsObjGet] using this

/-- Claim C3, witness: the query `{$limit: 25, status: "paid"}` (collision
free) normalizes with `$limit` stripped to `limit` carrying 25. -/
theorem cleanQuery_spec_witness :
    jsObjGet (cleanQuery (.obj [("$limit", .num 25), ("status", .str "paid")])) "limit"
      = some (.num 25) := by
  have h := cleanQuery_spec.2.2 [("$limit", .num 25), ("status", .str "paid")]
    "$limit" (.num 25) (by simp) (by simp) (by rfl) (by unfold NoCollisions; decide)
  simpa [replaceFirstDollar, removeFirstDollar, cleanQuery] using h

/-- Claim C3, counterexample: in `{$limit: 5, limit: 7}` the later `limit`
entry overwrites the value the stripped `$limit` wrote, so the output's
`limit` is 7, not the normalized value 5 of the `$limit` entry. -/
theorem cleanQuery_collision_counterexample :
    jsObjGet (cleanQuery (.obj [("$limit", .num 5), ("limit", .num 7)])) "limit"
      = some (.num 7) ∧
    jsObjGet (cleanQuery (.obj [("$limit", .num 5), ("limit", .num 7)])) "limit"
      ≠ some (cleanQuery (.num 5)) := by
  constructor <;>
    simp [cleanQuery, cleanEntries, cleanList, objSet, objDelete, objGet, jsObjGet,
      startsWithDollar, replaceFirstDollar, removeFirstDollar]

/-- The string `"$" ++ t` written through `String.mk`, for `t = "limit"`. -/
theorem dollar_limit_eq : String.mk ('$' :: "limit".data) = "$limit" := rfl

/-- Claim C10 (amended).  `filterQuery` applies limit clamping only when the
incoming query carries a truthy `$limit` or `limit`: when neither key is
present, the forwarded query contains no `limit` entry and the configured
default is not injected, and, absent target-key collisions, every other entry
is preserved modulo `$`-prefix stripping with its value normalized.  The
correction: a query carrying `limit: 0` (or `$limit: 0`) escapes clamping but
its entry is still forwarded, so the claim's "no limit entry" fails there. -/
theorem filterQuery_spec (options : JSVal) (fs : List (String × JSVal))
    (hnd : (fs.map Prod.fst).Nodup)
    (hno : ∀ a ∈ fs, a.1 ≠ "limit" ∧ a.1 ≠ "$limit") :
    jsObjGet (filterQuery options (.obj [("query", .obj fs)])) "limit" = none ∧
    (NoCollisions fs →
      ∀ a ∈ fs, jsObjGet (filterQuery options (.obj [("query", .obj fs)])) (targetKey a.1)
        = some (cleanQuery a.2)) := by
  have h1 : objGet fs "$limit" = none := objGet_eq_none _ _ (fun a ha => (hno a ha).2)
  have h2 : objGet fs "limit" = none := objGet_eq_none _ _ (fun a ha => (hno a ha).1)
  have hq : filterQuery options (.obj [("query", .obj fs)]) = cleanQuery (.obj fs) := by
    simp [filterQuery, jsField, assignFields, objGetD, objGet, h1, h2, jsOr, truthy]
  constructor
  · rw [hq]
    have huntouched : ∀ a ∈ fs, targetKey a.1 ≠ "limit" ∧ a.1 ≠ "limit" := by
      intro a ha
      refine ⟨targetKey_ne a.1 "limit" (hno a ha).1 ?_, (hno a ha).1⟩
      rw [dollar_limit_eq]
      exact (hno a ha).2
    have := cleanEntries_get_untouched "limit" fs fs huntouched
    simp [cleanQuery, jsObjGet, this, h2]
  · intro hnc a ha
    rw [hq]
    have hmem : (a.1, a.2) ∈ fs := by simpa using ha
    have hothers : ∀ b ∈ fs, b.1 ≠ a.1 →
        targetKey b.1 ≠ targetKey a.1 ∧ b.1 ≠ targetKey a.1 :=
      fun b hb hbk => hnc b hb a ha hbk
    have := cleanEntries_get (targetKey a.1) fs fs a.1 a.2 hnd hmem rfl hothers
    simpa [cleanQuery, jsObjGet] using this

/-- Claim C10, witness: the limit-free query `{status: "paid"}` forwards with
no `limit` entry (no default injected) and its entry preserved. -/
theorem filterQuery_spec_witness :
    jsObjGet (filterQuery (policyOptions 10 100)
      (.obj [("query", .obj [("status", .str "paid")])])) "limit" = none ∧
    jsObjGet (filterQuery (policyOptions 10 100)
      (.obj [("query", .obj [("status", .str "paid")])])) "status"
      = some (.str "paid") := by
  have h := filterQuery_spec (policyOptions 10 100) [("status", .str "paid")]
    (by simp) (by simp)
  refine ⟨h.1, ?_⟩
  have h2 := h.2 (by unfold NoCollisions; decide) ("status", .str "paid") (by simp)
  simpa [targetKey, startsWithDollar, cleanQuery] using h2

/-- Claim C10, counterexample: the query `{limit: 0}` carries a falsy limit,
so clamping is skipped, yet the entry is forwarded: the output does contain a
`limit` entry, refuting the claim's "the forwarded query contains no limit
entry" for limit 0. -/
theorem filterQuery_zero_limit_counterexample :
    jsObjGet (filterQuery (policyOptions 10 100)
      (.obj [("query", .obj [("limit", .num 0)])])) "limit" = some (.num 0) ∧
    jsObjGet (filterQuery (policyOptions 10 100)
      (.obj [("query", .obj [("limit", .num 0)])])) "limit" ≠ none := by
  constructor <;>
    simp [filterQuery, jsField, assignFields, objGetD, objGet, jsOr, truthy,
      cleanQuery, cleanEntries, objSet, objDelete, startsWithDollar,
      replaceFirstDollar, removeFirstDollar, jsObjGet]

end FeathersStripe
